import Mathlib

/-! Shallow embedding of `src/train.py` (KoCLIP training loop) and proofs about it.

Conventions:
* Python floats are modelled as exact rationals (`ℚ`) except where a square
  root is required (row L2 norms), where real numbers (`ℝ`) are used.
* Python integer division `//` and `%` are `Nat` division and mod.
* Fallible code is modelled with `Except`; code with no error path is a total
  function.
* Tensors appearing in the claims are modelled either as lists of rows
  (where flattening/argmax indices matter) or as Mathlib matrices
  (where algebraic structure matters).
-/

namespace KoCLIP

/-! Accuracy increment (train.py lines 86-88 and 151-153).

`labels = torch.arange(len(logits_per_image))` and
`train_img_acc += (logits_per_image.argmax()==labels).sum()`.

`Tensor.argmax()` with no `dim` argument returns the index of the (first)
maximum of the *flattened* tensor.  The comparison with `labels` broadcasts
the scalar index against `[0, 1, ..., B-1]` and `.sum()` counts the matches. -/

/-- Index of the first maximum of `l` given the best value/index so far and
the index of the next element (helper for `argmaxIdx`). -/
def argmaxAux : List ℚ → ℚ → ℕ → ℕ → ℕ
  | [], _, bi, _ => bi
  | x :: xs, bv, bi, i => if bv < x then argmaxAux xs x i (i + 1) else argmaxAux xs bv bi (i + 1)

/-- Index of the first occurrence of the maximum of a list (PyTorch
`Tensor.argmax` tie-breaking: first maximal value). Empty list gives 0. -/
def argmaxIdx : List ℚ → ℕ
  | [] => 0
  | x :: xs => argmaxAux xs x 0 1

/-- The accuracy increment actually computed by train.py line 88 (and line 153):
`(logits_per_image.argmax()==labels).sum()` where `labels = arange(B)` and
`argmax()` is taken over the flattened `B×B` matrix. -/
def accIncrement (logits : List (List ℚ)) : ℕ :=
  let B := logits.length
  let k := argmaxIdx logits.flatten
  ((List.range B).filter (fun i => k = i)).length

/-- Modelled from the spec: the per-row match count the spec describes for the
accuracy metric — the number of rows whose argmax along the caption axis
equals the row's own index. -/
def perRowMatchCount (logits : List (List ℚ)) : ℕ :=
  (logits.enum.filter (fun p => argmaxIdx p.2 = p.1)).length

/-! Logit-scale clamping (train.py line 110).

`model.logit_scale.data = torch.clamp(model.logit_scale.data, 0, 4.6052)`.
The literal constant in the source is `4.6052`, a 5-digit rounding of
`ln 100 = 4.60517...`; note `4.6052 > ln 100`. -/

/-- The clamp `torch.clamp(x, 0, 4.6052)` from train.py line 110 (the `n_gpu > 1` branch
at line 112 applies the same formula to the same parameter). -/
def clampLogitScale (x : ℚ) : ℚ := max 0 (min x (46052 / 10000))

/-! Total steps and warmup steps (train.py lines 34 and 39). -/

/-- Total training iterations: `len(train_dataloader) // config.gradient_accumulation_steps *
config.num_train_epochs` (train.py line 34; Python `//` then `*`, left to
right). -/
def t_totalOf (numBatches accumSteps numEpochs : ℕ) : ℕ :=
  numBatches / accumSteps * numEpochs

/-- Warmup step count `int(0.20 * t_total)` (train.py line 39), with the
float literal `0.20` read as the exact rational `1/5` and `int` as truncation
toward zero. -/
def num_warmup_steps (t_total : ℕ) : ℕ := (⌊(0.20 : ℚ) * t_total⌋).toNat

/-! Checkpoint retry loop (train.py lines 175-193).

```
save_num = 0
while (save_num < 10):
    try:
        torch.save(...); logger.info(...); break
    except:
        save_num += 1
if save_num == 10:
    logger.info("Failed to save checkpoint after 10 trails.")
```

The attempt with the counter at value `k` is attempt number `k+1`; the
environment is abstracted as `fails : ℕ → Bool` telling whether the attempt
made while `save_num = k` raises.  The loop body runs at most 10 times, so
fuel 11 fully evaluates it. -/

/-- One evaluation of the `while` loop of `save_checkpoint`, with explicit
fuel; returns the final `save_num` and whether a save succeeded (`break`). -/
def saveLoopFuel (fails : ℕ → Bool) : ℕ → ℕ → ℕ × Bool
  | save_num, 0 => (save_num, false)
  | save_num, fuel + 1 =>
    if save_num < 10 then
      if fails save_num then saveLoopFuel fails (save_num + 1) fuel
      else (save_num, true)
    else (save_num, false)

/-- The retry loop of `save_checkpoint` (train.py lines 180-190): final `save_num`
and success flag. -/
def save_checkpoint (fails : ℕ → Bool) : ℕ × Bool := saveLoopFuel fails 0 11

/-- Number of persistence attempts performed by `save_checkpoint`: every
failed attempt increments `save_num`, and a successful attempt does not. -/
def saveAttempts (fails : ℕ → Bool) : ℕ :=
  if (save_checkpoint fails).2 then (save_checkpoint fails).1 + 1
  else (save_checkpoint fails).1

/-- Whether `save_checkpoint` reports failure (train.py lines 191-192:
`if save_num == 10`). -/
def reportsFailure (fails : ℕ → Bool) : Bool := (save_checkpoint fails).1 == 10

/-! Row normalization and similarity matrices (train.py lines 76-85).

```
image_features = image_features / image_features.norm(dim=-1, keepdim=True)
text_features  = text_features / text_features.norm(dim=-1, keepdim=True)
logit_scale = model.logit_scale.exp()
logits_per_image = logit_scale * image_features @ text_features.t()
logits_per_text  = logit_scale * text_features @ image_features.t()
```

Embeddings are `Matrix (Fin B) (Fin d) ℝ`; the row L2 norm uses `Real.sqrt`,
hence these definitions live over `ℝ` and are noncomputable. -/

/-- L2 norm of row `i` of `M` (`Tensor.norm(dim=-1)`). -/
noncomputable def rowNorm {B d : ℕ} (M : Matrix (Fin B) (Fin d) ℝ) (i : Fin B) : ℝ :=
  Real.sqrt (∑ j, M i j ^ 2)

/-- Row-wise L2 normalization as performed at train.py lines 76-77: each entry
is divided by its row norm, with no zero-norm check (in IEEE arithmetic a
zero-norm row yields NaN; in this real-number model, division by zero gives
0).  This function is total: the source has no error path here. -/
noncomputable def normalizeRows {B d : ℕ} (M : Matrix (Fin B) (Fin d) ℝ) :
    Matrix (Fin B) (Fin d) ℝ :=
  fun i j => M i j / rowNorm M i

/-- Error kind named by the spec for zero-norm rows. -/
inductive NormalizationError where
  | invalidEmbedding
  deriving DecidableEq

/-- Modelled from the spec: the spec's normalization contract, which demands
that an input containing a row of zero L2 norm fail with an
`InvalidEmbedding` error instead of being divided through.  (The source has
no such check; this definition exists only to be compared with
`normalizeRows`.) -/
noncomputable def normalizeSpec {B d : ℕ} (M : Matrix (Fin B) (Fin d) ℝ) :
    Except NormalizationError (Matrix (Fin B) (Fin d) ℝ) :=
  if ∃ i, rowNorm M i = 0 then Except.error NormalizationError.invalidEmbedding
  else Except.ok (normalizeRows M)

/-- Similarity matrix `logit_scale * image_features @ text_features.t()`
(train.py line 84), on the row-normalized features. -/
noncomputable def logits_per_image {B d : ℕ} (scale : ℝ)
    (img txt : Matrix (Fin B) (Fin d) ℝ) : Matrix (Fin B) (Fin B) ℝ :=
  fun i j => scale * ∑ k, normalizeRows img i k * normalizeRows txt j k

/-- Similarity matrix `logit_scale * text_features @ image_features.t()`
(train.py line 85), on the same row-normalized features. -/
noncomputable def logits_per_text {B d : ℕ} (scale : ℝ)
    (img txt : Matrix (Fin B) (Fin d) ℝ) : Matrix (Fin B) (Fin B) ℝ :=
  fun i j => scale * ∑ k, normalizeRows txt i k * normalizeRows img j k

/-! The training loop (train.py lines 60-172).

The orchestration state mutated by `train` is embedded explicitly.  Model
forward/backward and the optimizer are abstracted: per-batch combined losses
are inputs (`lossOf epoch step`), the optimizer's effect on the stored raw
`logit_scale` parameter is an arbitrary function `optUpd`, and the optimizer
and scheduler are otherwise tracked by their invocation counts. -/

/-- Configuration fields of `train` that the orchestration logic reads. -/
structure TrainConfig where
  gradient_accumulation_steps : ℕ
  num_train_epochs : ℕ
  /-- Number of batches per epoch, `len(train_dataloader)`. -/
  numBatches : ℕ
  save_steps : ℕ
  logging_steps : ℕ

/-- Total optimization steps as computed at train.py line 34. -/
def TrainConfig.t_total (cfg : TrainConfig) : ℕ :=
  t_totalOf cfg.numBatches cfg.gradient_accumulation_steps cfg.num_train_epochs

/-- The mutable training state owned by `train` (train.py lines 60-124). -/
structure TrainState where
  global_step : ℕ
  global_loss : ℚ
  /-- The stored raw (pre-exponentiation) `model.logit_scale` parameter. -/
  logit_scale : ℚ
  /-- Number of `optimizer.step()` calls so far. -/
  optSteps : ℕ
  /-- Number of `scheduler.step()` calls so far. -/
  schedSteps : ℕ
  /-- Batches whose gradients are accumulated since the last `zero_grad`. -/
  gradAccum : ℕ
  /-- Record of `(epoch, global_step)` for each `save_checkpoint` invocation,
  most recent first. -/
  saves : List (ℕ × ℕ)
  deriving DecidableEq

/-- One training batch (train.py lines 66-124): accumulate the (possibly
accumulation-scaled) loss into `global_loss`, accumulate a gradient, and at an
accumulation boundary `(step + 1) % gradient_accumulation_steps == 0` step
the optimizer, clamp the stored `logit_scale`, step the scheduler, reset
gradients, and invoke `save_checkpoint` per line 122's condition. -/
def trainStep (cfg : TrainConfig) (optUpd : ℚ → ℚ) (epoch step : ℕ) (loss : ℚ)
    (s : TrainState) : TrainState :=
  let scaled := if 1 < cfg.gradient_accumulation_steps
    then loss / cfg.gradient_accumulation_steps else loss
  let s1 := { s with global_loss := s.global_loss + scaled,
                     gradAccum := s.gradAccum + 1 }
  if (step + 1) % cfg.gradient_accumulation_steps = 0 then
    let gs := s.global_step + 1
    { s1 with
      global_step := gs
      optSteps := s.optSteps + 1
      logit_scale := clampLogitScale (optUpd s.logit_scale)
      schedSteps := s.schedSteps + 1
      gradAccum := 0
      saves := if (0 < cfg.save_steps ∧ gs % cfg.save_steps = 0) ∨ gs = cfg.t_total
        then (epoch, gs) :: s.saves else s.saves }
  else s1

/-- The inner loop over one epoch's training batches (train.py lines 66-124),
running `n` more batches starting at step index `step`. -/
def runSteps (cfg : TrainConfig) (optUpd : ℚ → ℚ) (epoch : ℕ) (lossOf : ℕ → ℚ) :
    ℕ → ℕ → TrainState → TrainState
  | _, 0, s => s
  | step, n + 1, s =>
    runSteps cfg optUpd epoch lossOf (step + 1) n
      (trainStep cfg optUpd epoch step (lossOf step) s)

/-- One validation batch's contribution: image-direction loss, text-direction
loss, and the accuracy increment of line 153. -/
structure ValBatch where
  imgLoss : ℚ
  txtLoss : ℚ
  accInc : ℕ

/-- The per-epoch validation accumulators (train.py lines 127-130). -/
structure ValMetrics where
  valid_loss : ℚ
  valid_img : ℚ
  valid_txt : ℚ
  val_img_acc : ℕ

/-- Initial validation accumulators (`0.0` each, train.py lines 127 and 130). -/
def ValMetrics.init : ValMetrics := ⟨0, 0, 0, 0⟩

/-- The body of the validation loop (train.py lines 131-164): computes the
combined loss `(image_loss + text_loss) / 2` and accumulates validation
metrics.  It is stated over the pair of the whole training state and the
validation accumulators so that what it leaves untouched is visible. -/
def valStep (p : TrainState × ValMetrics) (b : ValBatch) : TrainState × ValMetrics :=
  (p.1,
   { valid_loss := p.2.valid_loss + (b.imgLoss + b.txtLoss) / 2
     valid_img := p.2.valid_img + b.imgLoss
     valid_txt := p.2.valid_txt + b.txtLoss
     val_img_acc := p.2.val_img_acc + b.accInc })

/-- The validation pass of one epoch (train.py lines 126-169). -/
def runValidation (s : TrainState) (batches : List ValBatch) :
    TrainState × ValMetrics :=
  batches.foldl valStep (s, ValMetrics.init)

/-- One epoch: the training loop over `cfg.numBatches` batches followed by
the validation pass (whose metrics are logged and discarded). -/
def runEpoch (cfg : TrainConfig) (optUpd : ℚ → ℚ) (lossOf : ℕ → ℕ → ℚ)
    (valBatches : ℕ → List ValBatch) (epoch : ℕ) (s : TrainState) : TrainState :=
  (runValidation (runSteps cfg optUpd epoch (lossOf epoch) 0 cfg.numBatches s)
    (valBatches epoch)).1

/-- Runs `k` consecutive epochs starting at epoch index `epoch`. -/
def runEpochsFrom (cfg : TrainConfig) (optUpd : ℚ → ℚ) (lossOf : ℕ → ℕ → ℚ)
    (valBatches : ℕ → List ValBatch) : ℕ → ℕ → TrainState → TrainState
  | _, 0, s => s
  | epoch, k + 1, s =>
    runEpochsFrom cfg optUpd lossOf valBatches (epoch + 1) k
      (runEpoch cfg optUpd lossOf valBatches epoch s)

/-- The initial state of `train` (train.py lines 60-61), with the model's
initial raw `logit_scale` value. -/
def initState (initScale : ℚ) : TrainState := ⟨0, 0, initScale, 0, 0, 0, []⟩

/-- The whole training loop of `train` (train.py lines 60-169). -/
def train (cfg : TrainConfig) (optUpd : ℚ → ℚ) (lossOf : ℕ → ℕ → ℚ)
    (valBatches : ℕ → List ValBatch) (initScale : ℚ) : TrainState :=
  runEpochsFrom cfg optUpd lossOf valBatches 0 cfg.num_train_epochs
    (initState initScale)

/-- The value returned by `train` (train.py line 172):
`return global_step, global_loss / global_step`.  When `global_step` is 0 the
Python division raises `ZeroDivisionError`, modelled as an `Except.error`. -/
def trainResult (cfg : TrainConfig) (optUpd : ℚ → ℚ) (lossOf : ℕ → ℕ → ℚ)
    (valBatches : ℕ → List ValBatch) (initScale : ℚ) : Except String (ℕ × ℚ) :=
  let s := train cfg optUpd lossOf valBatches initScale
  if s.global_step = 0 then Except.error ("ZeroDivisionError")
  else Except.ok (s.global_step, s.global_loss / s.global_step)

/-! Helper lemmas. -/

/-- If the attempts with counter values `s, s+1, ..., s+m-1` fail and the one
at `s+m` succeeds (all within bound 10), the retry loop stops exactly there
with success. -/
theorem saveLoopFuel_firstSuccess (fails : ℕ → Bool) :
    ∀ m s fuel : ℕ, s + m < 10 → m < fuel →
      (∀ j, j < m → fails (s + j) = true) → fails (s + m) = false →
      saveLoopFuel fails s fuel = (s + m, true) := by
  intro m
  induction m with
  | zero =>
    intro s fuel h10 hfuel _ hs
    cases fuel with
    | zero => omega
    | succ f =>
      rw [saveLoopFuel]
      simp only [Nat.add_zero] at hs
      simp [show s < 10 by omega, hs]
  | succ m ih =>
    intro s fuel h10 hfuel hall hs
    cases fuel with
    | zero => omega
    | succ f =>
      have h0 : fails s = true := by simpa using hall 0 (by omega)
      rw [saveLoopFuel]
      simp only [show s < 10 by omega, if_true, h0]
      have hrec := ih (s + 1) f (by omega) (by omega)
        (fun j hj => by
          have h := hall (j + 1) (by omega)
          have he : s + (j + 1) = s + 1 + j := by omega
          rwa [he] at h)
        (by
          have he : s + (m + 1) = s + 1 + m := by omega
          rwa [he] at hs)
      rw [hrec]
      have he : s + 1 + m = s + (m + 1) := by omega
      rw [he]

/-- If every attempt fails, the retry loop drives the counter to 10 and
reports no success. -/
theorem saveLoopFuel_allFail (fails : ℕ → Bool)
    (h : ∀ j, j < 10 → fails j = true) :
    ∀ fuel s : ℕ, s ≤ 10 → 10 ≤ s + fuel →
      saveLoopFuel fails s fuel = (10, false) := by
  intro fuel
  induction fuel with
  | zero =>
    intro s h1 h2
    have hs : s = 10 := by omega
    subst hs
    rfl
  | succ f ih =>
    intro s h1 h2
    by_cases hs : s < 10
    · rw [saveLoopFuel]
      simp [hs, h s hs]
      exact ih (s + 1) (by omega) (by omega)
    · have hs10 : s = 10 := by omega
      subst hs10
      rw [saveLoopFuel]
      simp

/-- The retry loop never takes the counter beyond 10, and on success the
counter is strictly below 10. -/
theorem saveLoopFuel_bound (fails : ℕ → Bool) :
    ∀ fuel s : ℕ, s ≤ 10 →
      (saveLoopFuel fails s fuel).1 ≤ 10 ∧
      ((saveLoopFuel fails s fuel).2 = true → (saveLoopFuel fails s fuel).1 < 10) := by
  intro fuel
  induction fuel with
  | zero =>
    intro s hs
    rw [saveLoopFuel]
    simp [hs]
  | succ f ih =>
    intro s hs
    rw [saveLoopFuel]
    by_cases h10 : s < 10
    · cases hf : fails s with
      | true =>
        simp only [h10, if_true, hf]
        exact ih (s + 1) (by omega)
      | false =>
        simp only [h10, if_true, hf]
        exact ⟨hs, fun _ => h10⟩
    · simp [h10, hs]

/-- The validation loop body threads the training state through unchanged:
only the validation accumulators are written. -/
theorem foldl_valStep_fst :
    ∀ (batches : List ValBatch) (p : TrainState × ValMetrics),
      (batches.foldl valStep p).1 = p.1 := by
  intro batches
  induction batches with
  | nil => intro p; rfl
  | cons b bs ih =>
    intro p
    rw [List.foldl_cons, ih]
    rfl

/-- The effect of one training batch at an accumulation boundary. -/
theorem trainStep_boundary (cfg : TrainConfig) (optUpd : ℚ → ℚ) (epoch step : ℕ)
    (loss : ℚ) (s : TrainState)
    (hb : (step + 1) % cfg.gradient_accumulation_steps = 0) :
    trainStep cfg optUpd epoch step loss s =
      { global_step := s.global_step + 1
        global_loss := s.global_loss + (if 1 < cfg.gradient_accumulation_steps
          then loss / cfg.gradient_accumulation_steps else loss)
        logit_scale := clampLogitScale (optUpd s.logit_scale)
        optSteps := s.optSteps + 1
        schedSteps := s.schedSteps + 1
        gradAccum := 0
        saves := if (0 < cfg.save_steps ∧ (s.global_step + 1) % cfg.save_steps = 0)
            ∨ s.global_step + 1 = cfg.t_total
          then (epoch, s.global_step + 1) :: s.saves else s.saves } := by
  unfold trainStep
  rw [if_pos hb]

/-- The effect of one training batch away from an accumulation boundary. -/
theorem trainStep_nonboundary (cfg : TrainConfig) (optUpd : ℚ → ℚ) (epoch step : ℕ)
    (loss : ℚ) (s : TrainState)
    (hb : ¬ (step + 1) % cfg.gradient_accumulation_steps = 0) :
    trainStep cfg optUpd epoch step loss s =
      { s with
        global_loss := s.global_loss + (if 1 < cfg.gradient_accumulation_steps
          then loss / cfg.gradient_accumulation_steps else loss),
        gradAccum := s.gradAccum + 1 } := by
  unfold trainStep
  rw [if_neg hb]

/-- One batch increments `global_step`, the optimizer call count and the
scheduler call count exactly when it is an accumulation boundary. -/
theorem trainStep_counts (cfg : TrainConfig) (optUpd : ℚ → ℚ) (epoch step : ℕ)
    (loss : ℚ) (s : TrainState) :
    (trainStep cfg optUpd epoch step loss s).global_step = s.global_step
      + (if (step + 1) % cfg.gradient_accumulation_steps = 0 then 1 else 0) ∧
    (trainStep cfg optUpd epoch step loss s).optSteps = s.optSteps
      + (if (step + 1) % cfg.gradient_accumulation_steps = 0 then 1 else 0) ∧
    (trainStep cfg optUpd epoch step loss s).schedSteps = s.schedSteps
      + (if (step + 1) % cfg.gradient_accumulation_steps = 0 then 1 else 0) := by
  by_cases hb : (step + 1) % cfg.gradient_accumulation_steps = 0
  · rw [trainStep_boundary cfg optUpd epoch step loss s hb]
    simp [hb]
  · rw [trainStep_nonboundary cfg optUpd epoch step loss s hb]
    simp [hb]

/-- Step counting over a run of `n` batches starting at step index `step`:
the boundary count in the window is the difference of division values,
stated additively. -/
theorem runSteps_counts (cfg : TrainConfig) (optUpd : ℚ → ℚ) (epoch : ℕ)
    (lossOf : ℕ → ℚ) :
    ∀ (n step : ℕ) (s : TrainState),
      (runSteps cfg optUpd epoch lossOf step n s).global_step
          + step / cfg.gradient_accumulation_steps
        = s.global_step + (step + n) / cfg.gradient_accumulation_steps ∧
      (runSteps cfg optUpd epoch lossOf step n s).optSteps
          + step / cfg.gradient_accumulation_steps
        = s.optSteps + (step + n) / cfg.gradient_accumulation_steps ∧
      (runSteps cfg optUpd epoch lossOf step n s).schedSteps
          + step / cfg.gradient_accumulation_steps
        = s.schedSteps + (step + n) / cfg.gradient_accumulation_steps := by
  intro n
  induction n with
  | zero =>
    intro step s
    rw [runSteps]
    simp
  | succ n ih =>
    intro step s
    rw [runSteps]
    obtain ⟨hg, ho, hc⟩ := ih (step + 1) (trainStep cfg optUpd epoch step (lossOf step) s)
    obtain ⟨tg, to2, tc⟩ := trainStep_counts cfg optUpd epoch step (lossOf step) s
    have hd : (step + 1) / cfg.gradient_accumulation_steps
        = step / cfg.gradient_accumulation_steps
          + (if (step + 1) % cfg.gradient_accumulation_steps = 0 then 1 else 0) := by
      rw [Nat.succ_div]
      simp only [Nat.dvd_iff_mod_eq_zero]
    have hn : step + 1 + n = step + (n + 1) := by omega
    rw [hn] at hg ho hc
    by_cases hb : (step + 1) % cfg.gradient_accumulation_steps = 0
    · simp only [if_pos hb] at hd tg to2 tc
      omega
    · simp only [if_neg hb] at hd tg to2 tc
      omega

/-- Incrementing the step index crosses an accumulation boundary exactly when
the division value increases. -/
theorem div_succ_boundary (A step : ℕ) :
    (step + 1) / A = step / A + (if (step + 1) % A = 0 then 1 else 0) := by
  rw [Nat.succ_div]
  simp only [Nat.dvd_iff_mod_eq_zero]

/-- With periodic checkpointing disabled, a boundary step records a checkpoint
exactly when the new `global_step` equals `t_total`. -/
theorem trainStep_saves_boundary_zero (cfg : TrainConfig) (h0 : cfg.save_steps = 0)
    (optUpd : ℚ → ℚ) (epoch step : ℕ) (loss : ℚ) (s : TrainState)
    (hb : (step + 1) % cfg.gradient_accumulation_steps = 0) :
    (trainStep cfg optUpd epoch step loss s).saves =
      if s.global_step + 1 = cfg.t_total then (epoch, s.global_step + 1) :: s.saves
      else s.saves := by
  rw [trainStep_boundary cfg optUpd epoch step loss s hb]
  simp [h0]

/-- A non-boundary step records no checkpoint. -/
theorem trainStep_saves_nonboundary (cfg : TrainConfig) (optUpd : ℚ → ℚ)
    (epoch step : ℕ) (loss : ℚ) (s : TrainState)
    (hb : ¬ (step + 1) % cfg.gradient_accumulation_steps = 0) :
    (trainStep cfg optUpd epoch step loss s).saves = s.saves := by
  rw [trainStep_nonboundary cfg optUpd epoch step loss s hb]

/-- With periodic checkpointing disabled, a window of `n` batches records the
single checkpoint `(epoch, t_total)` exactly when its boundary steps carry
`global_step` past `t_total`, and records nothing else. -/
theorem runSteps_saves_zero (cfg : TrainConfig) (h0 : cfg.save_steps = 0)
    (optUpd : ℚ → ℚ) (epoch : ℕ) (lossOf : ℕ → ℚ) :
    ∀ (n step : ℕ) (s : TrainState),
      (runSteps cfg optUpd epoch lossOf step n s).saves =
        if s.global_step < cfg.t_total ∧
            cfg.t_total + step / cfg.gradient_accumulation_steps ≤
              s.global_step + (step + n) / cfg.gradient_accumulation_steps
        then (epoch, cfg.t_total) :: s.saves else s.saves := by
  intro n
  induction n with
  | zero =>
    intro step s
    rw [runSteps, if_neg]
    rintro ⟨h1, h2⟩
    rw [Nat.add_zero] at h2
    omega
  | succ n ih =>
    intro step s
    rw [runSteps, ih (step + 1) (trainStep cfg optUpd epoch step (lossOf step) s)]
    have hg := (trainStep_counts cfg optUpd epoch step (lossOf step) s).1
    have hn2 : step + 1 + n = step + (n + 1) := by omega
    by_cases hb : (step + 1) % cfg.gradient_accumulation_steps = 0
    · rw [trainStep_saves_boundary_zero cfg h0 optUpd epoch step (lossOf step) s hb]
      simp only [if_pos hb] at hg
      have hd : (step + 1) / cfg.gradient_accumulation_steps
          = step / cfg.gradient_accumulation_steps + 1 := by
        rw [div_succ_boundary]
        simp [hb]
      have hmono : (step + 1) / cfg.gradient_accumulation_steps
          ≤ (step + (n + 1)) / cfg.gradient_accumulation_steps :=
        Nat.div_le_div_right (by omega)
      rw [hg, hn2, hd]
      rw [hd] at hmono
      by_cases hT : s.global_step + 1 = cfg.t_total
      · rw [if_pos hT, hT, if_neg (by omega), if_pos (by omega)]
      · rw [if_neg hT]
        exact if_congr (by omega) rfl rfl
    · rw [trainStep_saves_nonboundary cfg optUpd epoch step (lossOf step) s hb]
      simp only [if_neg hb, Nat.add_zero] at hg
      have hd : (step + 1) / cfg.gradient_accumulation_steps
          = step / cfg.gradient_accumulation_steps := by
        rw [div_succ_boundary]
        simp [hb]
      rw [hg, hn2, hd]

/-- One epoch's checkpoint record with periodic checkpointing disabled. -/
theorem runEpoch_saves_zero (cfg : TrainConfig) (h0 : cfg.save_steps = 0)
    (optUpd : ℚ → ℚ) (lossOf : ℕ → ℕ → ℚ) (valBatches : ℕ → List ValBatch)
    (epoch : ℕ) (s : TrainState) :
    (runEpoch cfg optUpd lossOf valBatches epoch s).saves =
      if s.global_step < cfg.t_total ∧
          cfg.t_total ≤ s.global_step
            + cfg.numBatches / cfg.gradient_accumulation_steps
      then (epoch, cfg.t_total) :: s.saves else s.saves := by
  unfold runEpoch runValidation
  rw [foldl_valStep_fst,
    runSteps_saves_zero cfg h0 optUpd epoch (lossOf epoch) cfg.numBatches 0 s]
  simp only [Nat.zero_div, Nat.add_zero, Nat.zero_add]

/-- One epoch performs exactly `numBatches / gradient_accumulation_steps`
optimizer steps, scheduler steps and `global_step` increments. -/
theorem runEpoch_counts (cfg : TrainConfig) (optUpd : ℚ → ℚ) (lossOf : ℕ → ℕ → ℚ)
    (valBatches : ℕ → List ValBatch) (epoch : ℕ) (s : TrainState) :
    (runEpoch cfg optUpd lossOf valBatches epoch s).global_step
      = s.global_step + cfg.numBatches / cfg.gradient_accumulation_steps ∧
    (runEpoch cfg optUpd lossOf valBatches epoch s).optSteps
      = s.optSteps + cfg.numBatches / cfg.gradient_accumulation_steps ∧
    (runEpoch cfg optUpd lossOf valBatches epoch s).schedSteps
      = s.schedSteps + cfg.numBatches / cfg.gradient_accumulation_steps := by
  unfold runEpoch runValidation
  rw [foldl_valStep_fst]
  have h := runSteps_counts cfg optUpd epoch (lossOf epoch) cfg.numBatches 0 s
  simpa using h

/-- Running `k` epochs multiplies the per-epoch optimizer-step count by `k`. -/
theorem runEpochsFrom_counts (cfg : TrainConfig) (optUpd : ℚ → ℚ)
    (lossOf : ℕ → ℕ → ℚ) (valBatches : ℕ → List ValBatch) :
    ∀ (k epoch : ℕ) (s : TrainState),
      (runEpochsFrom cfg optUpd lossOf valBatches epoch k s).global_step
        = s.global_step + k * (cfg.numBatches / cfg.gradient_accumulation_steps) ∧
      (runEpochsFrom cfg optUpd lossOf valBatches epoch k s).optSteps
        = s.optSteps + k * (cfg.numBatches / cfg.gradient_accumulation_steps) ∧
      (runEpochsFrom cfg optUpd lossOf valBatches epoch k s).schedSteps
        = s.schedSteps + k * (cfg.numBatches / cfg.gradient_accumulation_steps) := by
  intro k
  induction k with
  | zero =>
    intro epoch s
    rw [runEpochsFrom]
    simp
  | succ k ih =>
    intro epoch s
    rw [runEpochsFrom]
    obtain ⟨hg, ho, hc⟩ := ih (epoch + 1) (runEpoch cfg optUpd lossOf valBatches epoch s)
    obtain ⟨eg, eo, ec⟩ := runEpoch_counts cfg optUpd lossOf valBatches epoch s
    have hm : (k + 1) * (cfg.numBatches / cfg.gradient_accumulation_steps)
        = k * (cfg.numBatches / cfg.gradient_accumulation_steps)
          + cfg.numBatches / cfg.gradient_accumulation_steps := by ring
    rw [hm]
    omega

/-- Checkpoint global-step values over `k` epochs with periodic checkpointing
disabled. -/
theorem runEpochsFrom_saves_zero (cfg : TrainConfig) (h0 : cfg.save_steps = 0)
    (optUpd : ℚ → ℚ) (lossOf : ℕ → ℕ → ℚ) (valBatches : ℕ → List ValBatch) :
    ∀ (k epoch : ℕ) (s : TrainState),
      ((runEpochsFrom cfg optUpd lossOf valBatches epoch k s).saves).map Prod.snd =
        if s.global_step < cfg.t_total ∧
            cfg.t_total ≤ s.global_step
              + k * (cfg.numBatches / cfg.gradient_accumulation_steps)
        then cfg.t_total :: (s.saves.map Prod.snd) else s.saves.map Prod.snd := by
  intro k
  induction k with
  | zero =>
    intro epoch s
    rw [runEpochsFrom, if_neg]
    rintro ⟨h1, h2⟩
    omega
  | succ k ih =>
    intro epoch s
    rw [runEpochsFrom, ih (epoch + 1) (runEpoch cfg optUpd lossOf valBatches epoch s)]
    have hs := runEpoch_saves_zero cfg h0 optUpd lossOf valBatches epoch s
    have hg := (runEpoch_counts cfg optUpd lossOf valBatches epoch s).1
    have hm : (k + 1) * (cfg.numBatches / cfg.gradient_accumulation_steps)
        = k * (cfg.numBatches / cfg.gradient_accumulation_steps)
          + cfg.numBatches / cfg.gradient_accumulation_steps := by ring
    rw [hs, hg]
    simp only [hm]
    generalize cfg.numBatches / cfg.gradient_accumulation_steps = q
    by_cases hHit : s.global_step < cfg.t_total ∧ cfg.t_total ≤ s.global_step + q
    · rw [if_pos hHit, List.map_cons, if_neg (by omega), if_pos (by omega)]
    · rw [if_neg hHit]
      exact if_congr (by omega) rfl rfl

/-! Claim theorems. -/

/-- Claim C1 (code bug): the source line
`train_img_acc += (logits_per_image.argmax()==labels).sum()` takes the argmax
of the flattened matrix, not a per-row argmax, so its increment differs from
the per-row match count the spec describes.  At the 2×2 logits matrix
`[[3, 0], [0, 2]]` both rows match their own index (per-row count 2), but the
code's increment is 1: the flat argmax is 0, which equals exactly one label. -/
theorem c1_accuracy_flat_argmax :
    accIncrement [[3, 0], [0, 2]] = 1 ∧ perRowMatchCount [[3, 0], [0, 2]] = 2 := by
  decide

/-- Claim C2: `save_checkpoint` attempts persistence at most 10 times; if the
attempts with counter values below `k < 10` fail and the next succeeds, it
stops after exactly `k + 1` attempts with success reported and no failure
report; if all 10 attempts fail, it performs exactly 10 attempts, reports
failure, and returns normally (the model is a total function: no exception
escapes).  The 9-failures-then-success scenario is the `k = 9` instance. -/
theorem c2_save_checkpoint_retry (fails : ℕ → Bool) :
    saveAttempts fails ≤ 10 ∧
    (∀ k, k < 10 → (∀ j, j < k → fails j = true) → fails k = false →
      saveAttempts fails = k + 1 ∧ (save_checkpoint fails).2 = true ∧
      reportsFailure fails = false) ∧
    ((∀ j, j < 10 → fails j = true) →
      saveAttempts fails = 10 ∧ (save_checkpoint fails).2 = false ∧
      reportsFailure fails = true) := by
  refine ⟨?_, ?_, ?_⟩
  · have hb := saveLoopFuel_bound fails 11 0 (by omega)
    unfold saveAttempts save_checkpoint
    unfold save_checkpoint at hb
    by_cases h2 : (saveLoopFuel fails 0 11).2 = true
    · simp only [h2, if_true]
      have := hb.2 h2
      omega
    · simp only [h2, if_false]
      exact hb.1
  · intro k hk hall hk0
    have hrun := saveLoopFuel_firstSuccess fails k 0 11 (by omega) (by omega)
      (fun j hj => by simpa using hall j hj) (by simpa using hk0)
    simp only [Nat.zero_add] at hrun
    refine ⟨?_, ?_, ?_⟩
    · simp [saveAttempts, save_checkpoint, hrun]
    · simp [save_checkpoint, hrun]
    · simp only [reportsFailure, save_checkpoint, hrun]
      simpa using by omega
  · intro hall
    have hrun := saveLoopFuel_allFail fails hall 11 0 (by omega) (by omega)
    refine ⟨?_, ?_, ?_⟩
    · simp [saveAttempts, save_checkpoint, hrun]
    · simp [save_checkpoint, hrun]
    · simp [reportsFailure, save_checkpoint, hrun]

/-- Witness for C2: with attempts 1-9 failing and attempt 10 succeeding,
`save_checkpoint` performs exactly 10 attempts and reports success. -/
theorem c2_save_checkpoint_retry_witness :
    saveAttempts (fun k => decide (k < 9)) = 10 ∧
    (save_checkpoint (fun k => decide (k < 9))).2 = true := by
  have h := (c2_save_checkpoint_retry (fun k => decide (k < 9))).2.1 9 (by decide)
    (fun j hj => by simp [hj]) (by decide)
  exact ⟨h.1, h.2.1⟩

/-- Claim C4: with accumulation factor `A ≥ 1` and `N` batches per epoch, every
epoch invokes the optimizer's step function exactly `N / A` times,
`global_step` equals `N / A` after the first epoch, and at completion
`global_step` equals `N / A * num_epochs`, which is the precomputed
`t_total`. -/
theorem c4_step_counts (cfg : TrainConfig) (optUpd : ℚ → ℚ) (lossOf : ℕ → ℕ → ℚ)
    (valBatches : ℕ → List ValBatch) (initScale : ℚ)
    (hA : 1 ≤ cfg.gradient_accumulation_steps) :
    (∀ (epoch : ℕ) (s : TrainState),
      (runEpoch cfg optUpd lossOf valBatches epoch s).optSteps
        = s.optSteps + cfg.numBatches / cfg.gradient_accumulation_steps) ∧
    (runEpoch cfg optUpd lossOf valBatches 0 (initState initScale)).global_step
      = cfg.numBatches / cfg.gradient_accumulation_steps ∧
    (train cfg optUpd lossOf valBatches initScale).global_step
      = cfg.numBatches / cfg.gradient_accumulation_steps * cfg.num_train_epochs ∧
    (train cfg optUpd lossOf valBatches initScale).global_step = cfg.t_total := by
  have htr := (runEpochsFrom_counts cfg optUpd lossOf valBatches
    cfg.num_train_epochs 0 (initState initScale)).1
  refine ⟨fun epoch s => (runEpoch_counts cfg optUpd lossOf valBatches epoch s).2.1,
    ?_, ?_, ?_⟩
  · have h := (runEpoch_counts cfg optUpd lossOf valBatches 0 (initState initScale)).1
    simpa [initState] using h
  · unfold train
    rw [htr]
    simp [initState, Nat.mul_comm]
  · unfold train
    rw [htr]
    simp only [initState, Nat.zero_add]
    unfold TrainConfig.t_total t_totalOf
    exact Nat.mul_comm _ _

/-- Witness for C4 with `A = 2`, `E = 3`, `N = 5`: `global_step` finishes at
`t_total = 6`. -/
theorem c4_step_counts_witness :
    1 ≤ (⟨2, 3, 5, 0, 1⟩ : TrainConfig).gradient_accumulation_steps ∧
    (train ⟨2, 3, 5, 0, 1⟩ id (fun _ _ => 0) (fun _ => []) 0).global_step
      = TrainConfig.t_total ⟨2, 3, 5, 0, 1⟩ :=
  ⟨by decide,
    (c4_step_counts ⟨2, 3, 5, 0, 1⟩ id (fun _ _ => 0) (fun _ => []) 0 (by decide)).2.2.2⟩

/-- Claim C10: if every epoch has fewer batches than the accumulation factor,
no accumulation boundary is ever reached, `global_step` stays 0 for the whole
run, and the final report `global_loss / global_step` raises
`ZeroDivisionError` instead of returning the pair. -/
theorem c10_small_epochs_zero_division (cfg : TrainConfig) (optUpd : ℚ → ℚ)
    (lossOf : ℕ → ℕ → ℚ) (valBatches : ℕ → List ValBatch) (initScale : ℚ)
    (hNA : cfg.numBatches < cfg.gradient_accumulation_steps) :
    (train cfg optUpd lossOf valBatches initScale).global_step = 0 ∧
    trainResult cfg optUpd lossOf valBatches initScale
      = Except.error ("ZeroDivisionError") := by
  have h0 : cfg.numBatches / cfg.gradient_accumulation_steps = 0 :=
    Nat.div_eq_of_lt hNA
  have hg := (runEpochsFrom_counts cfg optUpd lossOf valBatches
    cfg.num_train_epochs 0 (initState initScale)).1
  rw [h0] at hg
  have hgs : (train cfg optUpd lossOf valBatches initScale).global_step = 0 := by
    unfold train
    rw [hg]
    simp [initState]
  exact ⟨hgs, by simp [trainResult, hgs]⟩

/-- Witness for C10 with 1 batch per epoch and accumulation factor 2: the run
ends with `global_step = 0` and the return expression raises. -/
theorem c10_small_epochs_zero_division_witness :
    (⟨2, 1, 1, 0, 1⟩ : TrainConfig).numBatches
        < (⟨2, 1, 1, 0, 1⟩ : TrainConfig).gradient_accumulation_steps ∧
    ((train ⟨2, 1, 1, 0, 1⟩ id (fun _ _ => 0) (fun _ => []) 0).global_step = 0 ∧
      trainResult ⟨2, 1, 1, 0, 1⟩ id (fun _ _ => 0) (fun _ => []) 0
        = Except.error ("ZeroDivisionError")) :=
  ⟨by decide,
    c10_small_epochs_zero_division ⟨2, 1, 1, 0, 1⟩ id (fun _ _ => 0) (fun _ => []) 0
      (by decide)⟩

/-- The code's clamp ceiling `4.6052` strictly exceeds `ln 100 = 4.60517...`:
the source comment `log(100) = 4.6052` rounds up. -/
theorem log_hundred_lt : Real.log 100 < 46052 / 10000 := by
  rw [Real.log_lt_iff_lt_exp (by norm_num)]
  have hsplit : (46052 : ℝ) / 10000 = (4 : ℕ) * 1 + 6052 / 10000 := by norm_num
  rw [hsplit, Real.exp_add, Real.exp_nat_mul]
  have h1 : (2.7182818283 : ℝ) ^ 4 ≤ Real.exp 1 ^ 4 := by
    gcongr
    exact le_of_lt Real.exp_one_gt_d9
  have h2 : ∑ i ∈ Finset.range 7, ((6052 : ℝ) / 10000) ^ i / (Nat.factorial i)
      ≤ Real.exp (6052 / 10000) := Real.sum_le_exp_of_nonneg (by norm_num) 7
  calc (100 : ℝ)
      < 2.7182818283 ^ 4
          * ∑ i ∈ Finset.range 7, ((6052 : ℝ) / 10000) ^ i / (Nat.factorial i) := by
        norm_num [Finset.sum_range_succ, Nat.factorial]
    _ ≤ Real.exp 1 ^ 4 * Real.exp (6052 / 10000) := by
        apply mul_le_mul h1 h2 ?_ ?_
        · positivity
        · positivity

/-- Counterexample for C3 as stated: with accumulation factor 1 and an
optimizer that leaves the raw scale at 5, the boundary step at step index 0
stores `clamp(5, 0, 4.6052) = 4.6052`, which lies strictly above `ln 100` —
so the stored raw logit-scale value is not always in `[0, ln 100]`. -/
theorem c3_counterexample_scale_exceeds_log100 :
    Real.log 100 <
      ((trainStep ⟨1, 1, 1, 0, 1⟩ id 0 0 0 (initState 5)).logit_scale : ℝ) := by
  have hval : (trainStep ⟨1, 1, 1, 0, 1⟩ id 0 0 0 (initState 5)).logit_scale
      = 46052 / 10000 := by
    rw [trainStep_boundary ⟨1, 1, 1, 0, 1⟩ id 0 0 0 (initState 5) (by decide)]
    show clampLogitScale (id (initState 5).logit_scale) = 46052 / 10000
    unfold clampLogitScale initState
    rw [id_eq]
    rw [min_eq_right (by norm_num), max_eq_right (by norm_num)]
  rw [hval]
  have hcast : (((46052 : ℚ) / 10000 : ℚ) : ℝ) = 46052 / 10000 := by norm_num
  rw [hcast]
  exact log_hundred_lt

/-- Claim C3 (amended): at every accumulation boundary, after the clamping
side effect the stored raw `logit_scale` value lies in `[0, 4.6052]` — the
code's literal constant, which is the 5-digit rounding of `ln 100` and is
slightly larger than `ln 100` itself (see the counterexample theorem). -/
theorem c3_clamped_scale_range (cfg : TrainConfig) (optUpd : ℚ → ℚ)
    (epoch step : ℕ) (loss : ℚ) (s : TrainState)
    (hb : (step + 1) % cfg.gradient_accumulation_steps = 0) :
    0 ≤ (trainStep cfg optUpd epoch step loss s).logit_scale ∧
    (trainStep cfg optUpd epoch step loss s).logit_scale ≤ 46052 / 10000 := by
  rw [trainStep_boundary cfg optUpd epoch step loss s hb]
  exact ⟨le_max_left _ _, max_le (by norm_num) (min_le_right _ _)⟩

/-- Witness for C3's amended claim: one boundary step from a raw scale of 5
leaves the stored value inside `[0, 4.6052]`. -/
theorem c3_clamped_scale_range_witness :
    (0 + 1) % (⟨1, 1, 1, 0, 1⟩ : TrainConfig).gradient_accumulation_steps = 0 ∧
    (0 ≤ (trainStep ⟨1, 1, 1, 0, 1⟩ id 0 0 0 (initState 5)).logit_scale ∧
      (trainStep ⟨1, 1, 1, 0, 1⟩ id 0 0 0 (initState 5)).logit_scale
        ≤ 46052 / 10000) :=
  ⟨by decide, c3_clamped_scale_range ⟨1, 1, 1, 0, 1⟩ id 0 0 0 (initState 5) (by decide)⟩

/-- Claim C6: when `save_steps = 0`, no periodic checkpoint is ever attempted
(the guard `save_steps > 0 and ...` short-circuits, so the modulus by zero is
never evaluated), yet the final-step checkpoint at `global_step = t_total`
still occurs: the checkpoints recorded over the whole run are exactly one
save at `t_total` (none at all when the run performs no optimizer step). -/
theorem c6_save_steps_zero_final_checkpoint (cfg : TrainConfig) (optUpd : ℚ → ℚ)
    (lossOf : ℕ → ℕ → ℚ) (valBatches : ℕ → List ValBatch) (initScale : ℚ)
    (h0 : cfg.save_steps = 0) (hA : 1 ≤ cfg.gradient_accumulation_steps) :
    ((train cfg optUpd lossOf valBatches initScale).saves).map Prod.snd =
      if 0 < cfg.numBatches / cfg.gradient_accumulation_steps
          ∧ 0 < cfg.num_train_epochs
      then [cfg.t_total] else [] := by
  unfold train
  rw [runEpochsFrom_saves_zero cfg h0 optUpd lossOf valBatches
    cfg.num_train_epochs 0 (initState initScale)]
  simp only [initState, List.map_nil]
  have hT : cfg.t_total
      = cfg.numBatches / cfg.gradient_accumulation_steps * cfg.num_train_epochs := rfl
  rcases Nat.eq_zero_or_pos (cfg.numBatches / cfg.gradient_accumulation_steps)
    with hq | hq
  · simp [hT, hq]
  rcases Nat.eq_zero_or_pos cfg.num_train_epochs with hE | hE
  · simp [hT, hE]
  · have hpos : 0 < cfg.t_total := by
      rw [hT]
      exact Nat.mul_pos hq hE
    have hle : cfg.t_total ≤ 0 + cfg.num_train_epochs
        * (cfg.numBatches / cfg.gradient_accumulation_steps) := by
      rw [hT, Nat.zero_add, Nat.mul_comm]
    rw [if_pos ⟨hpos, hle⟩, if_pos ⟨hq, hE⟩]

/-- Witness for C6: `A = 1`, two batches, one epoch, `save_steps = 0`: the only
checkpoint recorded is the final one at `global_step = t_total = 2`. -/
theorem c6_save_steps_zero_final_checkpoint_witness :
    (⟨1, 1, 2, 0, 1⟩ : TrainConfig).save_steps = 0 ∧
    1 ≤ (⟨1, 1, 2, 0, 1⟩ : TrainConfig).gradient_accumulation_steps ∧
    ((train ⟨1, 1, 2, 0, 1⟩ id (fun _ _ => 0) (fun _ => []) 0).saves).map Prod.snd
      = (if 0 < (⟨1, 1, 2, 0, 1⟩ : TrainConfig).numBatches
              / (⟨1, 1, 2, 0, 1⟩ : TrainConfig).gradient_accumulation_steps
            ∧ 0 < (⟨1, 1, 2, 0, 1⟩ : TrainConfig).num_train_epochs
        then [TrainConfig.t_total ⟨1, 1, 2, 0, 1⟩] else []) :=
  ⟨rfl, by decide,
    c6_save_steps_zero_final_checkpoint ⟨1, 1, 2, 0, 1⟩ id (fun _ _ => 0)
      (fun _ => []) 0 rfl (by decide)⟩

/-- Claim C5 (amended): the normalization step cannot fail — the source has no
zero-norm check and no `InvalidEmbedding` error exists in it.  Where the
spec's contract (`normalizeSpec`) demands an `InvalidEmbedding` error, the
code's normalization (`normalizeRows`) silently divides the zero-norm row by
zero and propagates the junk row (NaN in IEEE arithmetic; the zero row in
this real-number model). -/
theorem c5_zero_norm_silent (B d : ℕ) (M : Matrix (Fin B) (Fin d) ℝ) (i : Fin B)
    (h : rowNorm M i = 0) :
    normalizeSpec M = Except.error NormalizationError.invalidEmbedding ∧
    ∀ j, normalizeRows M i j = 0 := by
  constructor
  · unfold normalizeSpec
    rw [if_pos ⟨i, h⟩]
  · intro j
    simp [normalizeRows, h]

/-- Witness for C5's amended claim at the 1×2 all-zero embedding matrix. -/
theorem c5_zero_norm_silent_witness :
    rowNorm (fun (_ : Fin 1) (_ : Fin 2) => (0 : ℝ)) 0 = 0 ∧
    (normalizeSpec (fun (_ : Fin 1) (_ : Fin 2) => (0 : ℝ))
        = Except.error NormalizationError.invalidEmbedding ∧
      ∀ j, normalizeRows (fun (_ : Fin 1) (_ : Fin 2) => (0 : ℝ)) 0 j = 0) :=
  ⟨by simp [rowNorm],
    c5_zero_norm_silent 1 2 (fun _ _ => 0) 0 (by simp [rowNorm])⟩

/-- Counterexample for C5 as stated: on the 1×2 all-zero embedding matrix
(whose single row has zero L2 norm) the code's normalization does not fail
with an `InvalidEmbedding` error — it returns the zero matrix — even though
the spec's contract demands the error there. -/
theorem c5_counterexample :
    normalizeRows (fun (_ : Fin 1) (_ : Fin 2) => (0 : ℝ)) = (fun _ _ => 0) ∧
    normalizeSpec (fun (_ : Fin 1) (_ : Fin 2) => (0 : ℝ))
      = Except.error NormalizationError.invalidEmbedding := by
  constructor
  · funext i j
    simp [normalizeRows]
  · unfold normalizeSpec
    rw [if_pos ⟨0, by simp [rowNorm]⟩]

/-- Claim C7: the validation pass mutates no training state — `global_step`,
`global_loss`, the stored raw `logit_scale`, the optimizer call count, the
schedule position, and the accumulated gradients are identical before and
after validation; only the per-epoch validation accumulators are written. -/
theorem c7_validation_frame (s : TrainState) (batches : List ValBatch) :
    (runValidation s batches).1 = s := by
  unfold runValidation
  rw [foldl_valStep_fst]

/-- Claim C8: `logits_per_text` is exactly the transpose of
`logits_per_image` for the same embedding pair and logit scale. -/
theorem c8_logits_transpose (B d : ℕ) (scale : ℝ)
    (img txt : Matrix (Fin B) (Fin d) ℝ) :
    logits_per_text scale img txt =
      Matrix.transpose (logits_per_image scale img txt) := by
  funext i j
  simp [logits_per_text, logits_per_image, Matrix.transpose_apply, mul_comm]

/-- Claim C9: `t_total` as computed by the code equals
`floor(num_batches / accum_steps) * num_epochs` (real-division floor), and
the warmup-step count passed to the scheduler equals
`floor(0.20 * t_total)`. -/
theorem c9_t_total_and_warmup (N A E : ℕ) (hA : 1 ≤ A) :
    (t_totalOf N A E : ℤ) = ⌊(N : ℚ) / (A : ℚ)⌋ * E ∧
    (num_warmup_steps (t_totalOf N A E) : ℤ) =
      ⌊(0.20 : ℚ) * (t_totalOf N A E : ℚ)⌋ := by
  constructor
  · have h0 : (0 : ℚ) ≤ (N : ℚ) / (A : ℚ) := by positivity
    rw [← Int.natCast_floor_eq_floor h0, Nat.floor_div_nat, Nat.floor_natCast]
    unfold t_totalOf
    push_cast
    ring
  · unfold num_warmup_steps
    rw [Int.toNat_of_nonneg]
    exact Int.floor_nonneg.mpr (by positivity)

/-- Witness for C9 at `N = 7`, `A = 2`, `E = 3`: `t_total = 9` and the warmup
count is `⌊1.8⌋ = 1`. -/
theorem c9_t_total_and_warmup_witness :
    1 ≤ 2 ∧
    ((t_totalOf 7 2 3 : ℤ) = ⌊(7 : ℚ) / (2 : ℚ)⌋ * 3 ∧
      (num_warmup_steps (t_totalOf 7 2 3) : ℤ) =
        ⌊(0.20 : ℚ) * (t_totalOf 7 2 3 : ℚ)⌋) :=
  ⟨by decide, c9_t_total_and_warmup 7 2 3 (by decide)⟩

end KoCLIP
